import Mathlib

/-!
Shallow embedding of `src/bot_escape_san_antonio.py` (an escape-room Telegram
bot) and proofs about its specification.  Pure helpers become Lean functions;
the handlers (`on_text`, `cmd_pista`, `on_button`, …) become explicit
state-passing functions `GameState → … → GameState × List Msg`.  Message
transport, the HTTP health endpoint, persistence and the two pickle
containers (user/chat) are plumbing; the active session record is modelled
directly.  `unicodedata` is modelled by explicit tables restricted to the
Latin repertoire the game uses (ASCII plus the Spanish accented letters).
-/

namespace EscapeBot

/-! ### Normalizer (source: `normalize`, lines 73–79) -/

/-- Lower-case table standing in for Python `str.lower`, restricted to the
characters relevant to the game (ASCII letters and Spanish accented vowels). -/
def lowerTable : List (Char × Char) :=
  [('A','a'),('B','b'),('C','c'),('D','d'),('E','e'),('F','f'),('G','g'),
   ('H','h'),('I','i'),('J','j'),('K','k'),('L','l'),('M','m'),('N','n'),
   ('O','o'),('P','p'),('Q','q'),('R','r'),('S','s'),('T','t'),('U','u'),
   ('V','v'),('W','w'),('X','x'),('Y','y'),('Z','z'),
   ('Á','á'),('É','é'),('Í','í'),('Ó','ó'),('Ú','ú'),('Ü','ü'),('Ñ','ñ')]

def pyLower (c : Char) : Char :=
  match lowerTable.find? (fun p => p.1 = c) with
  | some p => p.2
  | none => c

/-- NFD decomposition table standing in for `unicodedata.normalize("NFD", ·)`,
for the lower-case accented letters that can reach the decomposition stage
(the pipeline lower-cases first). -/
def decompTable : List (Char × List Char) :=
  [('á', ['a', '́']), ('é', ['e', '́']), ('í', ['i', '́']),
   ('ó', ['o', '́']), ('ú', ['u', '́']), ('ü', ['u', '̈']),
   ('ñ', ['n', '̃'])]

def nfdChar (c : Char) : List Char :=
  match decompTable.find? (fun p => p.1 = c) with
  | some p => p.2
  | none => [c]

/-- Unicode category Mn ("mark, non-spacing"), restricted to the combining
diacritical marks block. -/
def isMn (c : Char) : Bool :=
  0x300 ≤ c.toNat && c.toNat ≤ 0x36F

/-- Whitespace as recognised by Python `str.strip` / `str.split`
(ASCII whitespace). -/
def isWs (c : Char) : Bool :=
  c == ' ' || c == '\t' || c == '\n' || c == '\r' || c == '\x0b' || c == '\x0c'

/-- Python `text.strip()` on the character list. -/
def stripWs (l : List Char) : List Char :=
  ((l.dropWhile (fun c => isWs c)).reverse.dropWhile (fun c => isWs c)).reverse

/-- NFD-decompose and drop the non-spacing marks (the generator expression in
`normalize`). -/
def stripMarks : List Char → List Char
  | [] => []
  | c :: rest => (nfdChar c).filter (fun d => !isMn d) ++ stripMarks rest

/-- Helper for `words`: `acc` holds the current (reversed) in-progress word. -/
def wordsAux : List Char → List Char → List (List Char)
  | [], acc => if acc = [] then [] else [acc.reverse]
  | c :: rest, acc =>
    if isWs c then
      if acc = [] then wordsAux rest [] else acc.reverse :: wordsAux rest []
    else wordsAux rest (c :: acc)

/-- Python `text.split()`: maximal whitespace-free nonempty chunks. -/
def words (l : List Char) : List (List Char) := wordsAux l []

/-- Python `" ".join(…)`. -/
def joinSp : List (List Char) → List Char
  | [] => []
  | [w] => w
  | w :: ws => w ++ ' ' :: joinSp ws

def normList (l : List Char) : List Char :=
  joinSp (words (stripMarks ((stripWs l).map pyLower)))

/-- Source `normalize` (lines 73–79): strip, lower, drop combining marks,
collapse whitespace runs. -/
def normalize (s : String) : String := ⟨normList s.data⟩

/-! ### Small dict helpers (source: `safe_int` defaults, `inc`, lines 84–107).
Python dicts with integer values are modelled as association lists. -/

def mget (m : List (Nat × Nat)) (k : Nat) : Nat :=
  match m.find? (fun p => p.1 == k) with
  | some p => p.2
  | none => 0

def mset (m : List (Nat × Nat)) (k v : Nat) : List (Nat × Nat) :=
  if m.any (fun p => p.1 == k) then
    m.map (fun p => if p.1 == k then (p.1, v) else p)
  else m ++ [(k, v)]

/-- Source `inc` (lines 404–407): `d[room] = d.get(room, 0) + 1`. -/
def minc (m : List (Nat × Nat)) (k : Nat) : List (Nat × Nat) :=
  mset m k (mget m k + 1)

/-- Sum of a dict's values (source `count_total_attempts` /
`count_total_hints_used`, lines 93–99). -/
def msum (m : List (Nat × Nat)) : Nat := (m.map (fun p => p.2)).sum

/-! ### Static data (source: `ROOMS`, `OPTIONALS`, `OPTIONAL_OFFER_POINTS`) -/

inductive Mode where
  | individual
  | group
deriving DecidableEq

inductive OptId where
  | A
  | B
  | C
deriving DecidableEq

structure Room where
  hints : List String
  answers : Option (List String)
  item : Option String
  success : String
deriving DecidableEq

/-- Source `ROOMS` (lines 146–314).  The `text` prompts and the room-3 image
flag are presentation data sent verbatim by `send_room`; they are abstracted
into the `Msg.roomPrompt` message. -/
def ROOMS : Nat → Room
  | 1 => { hints := ["Empieza por el verbo principal: 'vende'.",
                     "La frase completa habla de desprenderse y ayudar a los pobres."],
           answers := some ["vende lo que tienes y dalo a los pobres"],
           item := some "RENUNCIA",
           success := "Correcto. Objeto: RENUNCIA. Pasas a la Sala 2." }
  | 2 => { hints := ["Elige la opción que encaja con el desprendimiento.",
                     "No se queda con la fortuna."],
           answers := some ["b"],
           item := some "DESAPEGO",
           success := "Correcto. Objeto: DESAPEGO. Pasas a la Sala 3." }
  | 3 => { hints := ["Es el lugar físico y simbólico del retiro.",
                     "Tiene 7 letras."],
           answers := some ["desierto"],
           item := some "SOLEDAD",
           success := "Correcto. Objeto: SOLEDAD. Pasas a la Sala 4." }
  | 4 => { hints := ["Contrario de soberbia.",
                     "Virtud relacionada con reconocer límites."],
           answers := none,
           item := some "FORTALEZA",
           success := "Correcto. Objeto: FORTALEZA. Pasas a la Sala 5." }
  | 5 => { hints := ["Relacionado con respirar.",
                     "Empieza por 'a'."],
           answers := some ["aliento"],
           item := some "ORACION",
           success := "Correcto. Objeto: ORACION. Pasas a la Sala 6." }
  | 6 => { hints := ["Fue referente; la gente lo buscaba.",
                     "Aconsejaba a otros."],
           answers := some ["falso"],
           item := some "COMUNIDAD",
           success := "Correcto. Objeto: COMUNIDAD. Pasas a la Sala 7." }
  | 7 => { hints := ["No acumular ni buscar fama.",
                     "La clave es la constancia."],
           answers := some ["b"],
           item := some "SABIDURIA",
           success := "Correcto. Objeto: SABIDURIA. Pasas a la Sala 8." }
  | 8 => { hints := ["Virtud esencial del cristianismo.",
                     "Empieza por 'c'."],
           answers := some ["caridad"],
           item := some "COMPASION",
           success := "Correcto. Objeto: COMPASION. Pasas a la Sala 9." }
  | 9 => { hints := ["Elige una de estas cuatro: humildad, fe, pobreza, perseverancia.",
                     "Escríbela tal cual."],
           answers := some ["humildad", "fe", "pobreza", "perseverancia"],
           item := some "PAZ_INTERIOR",
           success := "Correcto. Objeto: PAZ_INTERIOR. Pasas a la Sala 10." }
  | 10 => { hints := ["Una combinación válida: renuncia, oracion, sabiduria.",
                      "Otra válida: desapego, fortaleza, compasion."],
            answers := none,
            item := none,
            success := "ESCAPE COMPLETADO.\n\nHas recorrido el camino del desierto.\nEl legado de San Antonio no fue riqueza, sino ejemplo." }
  | _ => { hints := [], answers := none, item := none, success := "" }

/-- Reward dict of an optional room; a `none` field means the key is absent
from the Python dict. -/
structure Reward where
  free_hints : Option Nat := none
  jokers : Option Nat := none
  remove_penalty_sec : Option Nat := none
deriving DecidableEq

structure OptionalRoom where
  answers : List String
  reward : Reward
  success : String
  back_to : Nat
deriving DecidableEq

/-- Source `OPTIONALS` (lines 319–358); prompt texts abstracted into
`Msg.optPrompt`. -/
def OPTIONALS : OptId → OptionalRoom
  | .A => { answers := ["escuchar"],
            reward := { free_hints := some 1 },
            success := "Correcto. Recompensa: +1 pista gratuita. Vuelves a la ruta principal.",
            back_to := 4 }
  | .B => { answers := ["b"],
            reward := { remove_penalty_sec := some 60 },
            success := "Correcto. Recompensa: -60 s de penalización (si la tenías). Vuelves a la ruta principal.",
            back_to := 7 }
  | .C => { answers := ["compasion"],
            reward := { jokers := some 1 },
            success := "Correcto. Recompensa: +1 comodín. Vuelves a la ruta principal.",
            back_to := 9 }

/-- Source `OPTIONAL_OFFER_POINTS` (lines 360–364). -/
def OPTIONAL_OFFER_POINTS : Nat → Option (OptId × Nat)
  | 3 => some (.A, 4)
  | 6 => some (.B, 7)
  | 8 => some (.C, 9)
  | _ => none

/-! ### Session record (source: `init_state`, lines 369–385) -/

structure GameState where
  mode : Option Mode
  room : Nat
  inventory : List String
  start_ts : Int
  penalty_sec : Nat
  hints_used : List (Nat × Nat)
  attempts : List (Nat × Nat)
  completed : Bool
  optional_done : List OptId
  in_optional : Option OptId
  free_hints : Nat
  jokers : Nat
  s4_step : Int
deriving DecidableEq

/-- Source `init_state`: the fresh record. -/
def init_state (now : Int) : GameState :=
  { mode := none, room := 0, inventory := [], start_ts := now, penalty_sec := 0,
    hints_used := [], attempts := [], completed := false, optional_done := [],
    in_optional := none, free_hints := 0, jokers := 0, s4_step := 0 }

/-- Source `add_item` (lines 397–402). -/
def add_item (s : GameState) (item : Option String) : GameState :=
  match item with
  | none => s
  | some it => if it ∈ s.inventory then s else { s with inventory := s.inventory ++ [it] }

/-! ### Scoring (source: `elapsed`, `compute_score`, lines 90–128) -/

structure ScoreStats where
  score : Int
  time_sec : Int
  penalty_sec : Int
  hints_used : Nat
  attempts : Nat
  optional_done : Nat
deriving DecidableEq

/-- Source `elapsed`: `(now - start_ts) + penalty_sec`. -/
def elapsed (now : Int) (s : GameState) : Int :=
  (now - s.start_ts) + (s.penalty_sec : Int)

/-- Source `compute_score`: sequential subtractions from 1000, clamped at 0. -/
def compute_score (now : Int) (s : GameState) : ScoreStats :=
  let total_time := elapsed now s
  let hints_used := msum s.hints_used
  let attempts := msum s.attempts
  let optional_done := s.optional_done.length
  let score0 : Int := 1000 - total_time - 40 * (hints_used : Int) - 5 * (attempts : Int)
      + 50 * (optional_done : Int) + (if s.completed then 200 else 0)
  let score := if score0 < 0 then 0 else score0
  { score := score, time_sec := total_time, penalty_sec := (s.penalty_sec : Int),
    hints_used := hints_used, attempts := attempts, optional_done := optional_done }

/-! ### Room-10 validator (source: `validate_room_10`, lines 412–426) -/

/-- Python `str.split(",")`: pieces between commas, empty pieces kept. -/
def splitComma : List Char → List (List Char)
  | [] => [[]]
  | c :: rest =>
    if c = ',' then [] :: splitComma rest
    else
      match splitComma rest with
      | [] => [[c]]
      | w :: ws => (c :: w) :: ws

/-- De-duplication preserving first occurrences (the `unique` loop). -/
def dedupAux (seen : List String) : List String → List String
  | [] => []
  | x :: rest => if x ∈ seen then dedupAux seen rest else x :: dedupAux (seen ++ [x]) rest

def dedup (l : List String) : List String := dedupAux [] l

/-- The normalized nonempty comma-tokens of the raw input
(`[normalize(x) for x in raw.split(",") if normalize(x)]`). -/
def room10_tokens (raw : String) : List String :=
  ((splitComma raw.data).map (fun w => normalize ⟨w⟩)).filter (fun t => t ≠ "")

/-- Source `validate_room_10`: returns `(ok, used_joker)`. -/
def validate_room_10 (raw : String) (inv : List String) (jokers : Nat) : Bool × Bool :=
  let inv_norm := inv.map normalize
  let unique := dedup (room10_tokens raw)
  if 3 ≤ unique.length then
    ((unique.take 3).all (fun t => t ∈ inv_norm), false)
  else if unique.length = 2 ∧ 0 < jokers then
    (unique.all (fun t => t ∈ inv_norm), true)
  else
    (false, false)

/-! ### Outbound messages.  Replies are carried verbatim; room/optional
prompts (and the room-3 image fallback) are presentation-only and abstracted
by constructor. -/

inductive Msg where
  | text : String → Msg
  | roomPrompt : Nat → Msg
  | optPrompt : OptId → Msg
  | offer : OptId → Nat → Msg
  | status : ScoreStats → Msg
  | final : ScoreStats → Msg
  | invReport : List String → Nat → Nat → Msg
deriving DecidableEq

/-- Source `send_room` (lines 431–446): set the room, reset the room-4
sub-step when entering room 4, emit the room prompt. -/
def send_room (s : GameState) (room : Nat) : GameState × Msg :=
  let s1 := { s with room := room }
  let s2 := if room = 4 then { s1 with s4_step := 0 } else s1
  (s2, Msg.roomPrompt room)

/-- Reward application inside `on_text` (lines 680–686); `max(0, …)` on the
penalty is Nat truncated subtraction. -/
def apply_reward (r : Reward) (s : GameState) : GameState :=
  let s1 := match r.free_hints with
    | some n => { s with free_hints := s.free_hints + n }
    | none => s
  let s2 := match r.jokers with
    | some n => { s1 with jokers := s1.jokers + n }
    | none => s1
  match r.remove_penalty_sec with
  | some n => { s2 with penalty_sec := s2.penalty_sec - n }
  | none => s2

/-! ### Room 4 sequential handler (source: `handle_room4_sequence`,
lines 615–649).  Returns `none` exactly when the room is not 4. -/

def room4_expected : List String := ["humildad", "pobreza", "confianza"]

def handle_room4_sequence (s : GameState) (txt : String) : Option (GameState × List Msg) :=
  if s.room ≠ 4 then none
  else
    let step := s.s4_step
    if step < 0 ∨ 2 < step then
      some ({ s with s4_step := 0 },
        [Msg.text "Reiniciamos la Sala 4.\nTentación: SOBERBIA\n¿Qué virtud la vence?"])
    else
      let s1 := { s with attempts := minc s.attempts 4 }
      if txt ≠ room4_expected.getD step.toNat "" then
        some (s1, [Msg.text "No es correcto. Inténtalo de nuevo (una palabra)."])
      else if step = 0 then
        some ({ s1 with s4_step := 1 },
          [Msg.text "Correcto.\n\nSiguiente tentación: RIQUEZA\n¿Qué virtud la vence?"])
      else if step = 1 then
        some ({ s1 with s4_step := 2 },
          [Msg.text "Correcto.\n\nSiguiente tentación: MIEDO\n¿Qué virtud la vence?"])
      else
        let s2 := { s1 with s4_step := 3 }
        let s3 := add_item s2 (ROOMS 4).item
        let r := send_room s3 5
        some (r.1, [Msg.text "Correcto.\nHas vencido las 3 tentaciones.",
                    Msg.text (ROOMS 4).success, r.2])

/-! ### Text handler (source: `on_text`, lines 654–746) -/

def retryMain : String := "No es correcto. Inténtalo de nuevo. (Usa /pista si lo necesitas.)"

def alreadyDone : String := "Ya completaste el escape. Usa /reiniciar si quieres repetir."

def on_text (now : Int) (s : GameState) (raw : String) : GameState × List Msg :=
  if s.mode = none then (s, [Msg.text "Usa /start y elige modo para comenzar."])
  else if s.completed then (s, [Msg.text alreadyDone])
  else
    let txt := normalize raw
    match s.in_optional with
    | some opt =>
      let answers := (OPTIONALS opt).answers.map normalize
      if txt ∉ answers then (s, [Msg.text "No es correcto. Inténtalo de nuevo."])
      else
        let s1 := if opt ∈ s.optional_done then s
                  else { s with optional_done := s.optional_done ++ [opt] }
        let s2 := apply_reward (OPTIONALS opt).reward s1
        let s3 := { s2 with in_optional := none }
        let r := send_room s3 (OPTIONALS opt).back_to
        (r.1, [Msg.text (OPTIONALS opt).success, r.2])
    | none =>
      if s.room = 0 then (s, [Msg.text "Pulsa /start para comenzar."])
      else
        match handle_room4_sequence s txt with
        | some r => r
        | none =>
          let room := s.room
          let s1 := { s with attempts := minc s.attempts room }
          let data := ROOMS room
          if room = 10 then
            let v := validate_room_10 raw s1.inventory s1.jokers
            if !v.1 then (s1, [Msg.text retryMain])
            else
              let s2 := if v.2 then { s1 with jokers := s1.jokers - 1 } else s1
              let s3 := add_item s2 data.item
              let s4 := { s3 with completed := true }
              (s4, [Msg.text data.success, Msg.final (compute_score now s4)])
          else
            let answers := (data.answers.getD []).map normalize
            if txt ∉ answers then (s1, [Msg.text retryMain])
            else
              let s2 := add_item s1 data.item
              match OPTIONAL_OFFER_POINTS room with
              | some p => (s2, [Msg.text data.success, Msg.offer p.1 p.2])
              | none =>
                let r := send_room s2 (room + 1)
                (r.1, [Msg.text data.success, r.2])

/-! ### Hint command (source: `cmd_pista`, lines 506–543) -/

def cmd_pista (s : GameState) : GameState × Msg :=
  if s.mode = none then (s, Msg.text "Usa /start y elige modo para comenzar.")
  else if s.completed then (s, Msg.text alreadyDone)
  else if s.in_optional.isSome then (s, Msg.text "Esta sala opcional no tiene pista automática.")
  else if s.room = 0 then (s, Msg.text "Aún no has comenzado. Usa /start.")
  else
    let hints := (ROOMS s.room).hints
    if hints = [] then (s, Msg.text "Esta sala no tiene pistas.")
    else
      let used := mget s.hints_used s.room + 1
      let s1 := { s with hints_used := mset s.hints_used s.room used }
      let idx := used - 1
      if hints.length ≤ idx then
        (s1, Msg.text "No hay más pistas disponibles para esta sala.")
      else if 0 < s1.free_hints then
        ({ s1 with free_hints := s1.free_hints - 1 },
         Msg.text ("PISTA: " ++ hints.getD idx "" ++ "\n(Sin penalización: usaste una pista gratuita.)"))
      else
        let penalty := 30 * used
        ({ s1 with penalty_sec := s1.penalty_sec + penalty },
         Msg.text ("PISTA: " ++ hints.getD idx "" ++ "\nPenalización: +" ++ toString penalty ++ " s"))

/-! ### Status / inventory commands (sources: `cmd_estado` lines 487–504,
`cmd_inventario` lines 476–485); read-only projections. -/

def cmd_estado (now : Int) (s : GameState) : GameState × Msg :=
  (s, Msg.status (compute_score now s))

def cmd_inventario (s : GameState) : GameState × Msg :=
  (s, Msg.invReport s.inventory s.free_hints s.jokers)

/-! ### Button handler (source: `on_button`, lines 548–610).  Callback data
strings are modelled structurally; `chatPrivate` is the
`update.effective_chat.type == "private"` test. -/

inductive ButtonData where
  | modeIndividual
  | modeGroup
  | restartYes
  | restartNo
  | enter1
  | optEnter (o : OptId)
  | optSkip (o : OptId) (next : Nat)
deriving DecidableEq

def on_button (now : Int) (s : GameState) (b : ButtonData) (chatPrivate : Bool) :
    GameState × List Msg :=
  match b with
  | .modeIndividual =>
    ({ init_state now with mode := some .individual, room := 1 },
     [Msg.text "Modo INDIVIDUAL activado. Pulsa para comenzar."])
  | .modeGroup =>
    if chatPrivate then
      (s, [Msg.text "El modo GRUPO solo funciona dentro de un grupo de Telegram."])
    else
      ({ init_state now with mode := some .group, room := 1 },
       [Msg.text "Modo GRUPO activado. Pulsa para comenzar."])
  | .restartYes =>
    ({ init_state now with mode := s.mode },
     [Msg.text "Partida reiniciada. Usa /start para comenzar de nuevo."])
  | .restartNo => (s, [Msg.text "De acuerdo. No se reinicia."])
  | .enter1 =>
    let r := send_room s 1
    (r.1, [r.2])
  | .optEnter o =>
    if o ∈ s.optional_done then (s, [Msg.text "Esta sala opcional ya está completada."])
    else ({ s with in_optional := some o }, [Msg.optPrompt o])
  | .optSkip _ next =>
    let r := send_room s next
    (r.1, [r.2])

/-! ### One inbound event (dispatch of the registered handlers) -/

inductive Event where
  | textMsg (raw : String)
  | button (b : ButtonData) (chatPrivate : Bool)
  | hintReq
  | statusReq
  | invReq
deriving DecidableEq

def step (now : Int) (s : GameState) : Event → GameState × List Msg
  | .textMsg raw => on_text now s raw
  | .button b p => on_button now s b p
  | .hintReq => let r := cmd_pista s; (r.1, [r.2])
  | .statusReq => let r := cmd_estado now s; (r.1, [r.2])
  | .invReq => let r := cmd_inventario s; (r.1, [r.2])

/-! ### Concrete session records used to evaluate the handlers -/

/-- Room 10, full inventory, no jokers. -/
def c1State : GameState :=
  { init_state 0 with
    mode := some .individual, room := 10,
    inventory := ["RENUNCIA", "ORACION", "SABIDURIA"] }

/-- Room 10 with the other valid combination, one joker, some history. -/
def c2State : GameState :=
  { init_state 20 with
    mode := some .individual, room := 10,
    inventory := ["DESAPEGO", "FORTALEZA", "COMPASION"],
    penalty_sec := 30, hints_used := [(1, 1)], attempts := [(1, 2)], jokers := 1 }

/-- Room 1 with both of its hints already consumed. -/
def c3StateA : GameState :=
  { init_state 0 with mode := some .individual, room := 1, hints_used := [(1, 2)] }

/-- Room 5 with one free-hint credit. -/
def c3StateB : GameState :=
  { init_state 0 with mode := some .individual, room := 5, free_hints := 1 }

/-- Room 4 with a corrupted sub-puzzle step. -/
def c4StateA : GameState :=
  { init_state 0 with mode := some .individual, room := 4, s4_step := 5 }

/-- Room 4 at the last sub-puzzle step. -/
def c4StateB : GameState :=
  { init_state 0 with
    mode := some .individual, room := 4, s4_step := 2, attempts := [(4, 2)] }

/-- Checkpoint room 3 whose reward is already in the inventory
(the state left behind by solving room 3 and not answering the offer). -/
def c5StateA : GameState :=
  { init_state 0 with mode := some .individual, room := 3, inventory := ["SOLEDAD"] }

/-- Fresh room 1. -/
def c5StateB : GameState :=
  { init_state 0 with mode := some .individual, room := 1 }

/-- Inside optional B with 90 s of accumulated penalty. -/
def c6State : GameState :=
  { init_state 0 with
    mode := some .individual, room := 6, in_optional := some .B, penalty_sec := 90 }

/-- Mid-game at room 5. -/
def c7StateA : GameState :=
  { init_state 0 with mode := some .individual, room := 5 }

/-- Mid-game at room 6. -/
def c7StateB : GameState :=
  { init_state 0 with mode := some .individual, room := 6 }

/-- A completed session. -/
def c8State : GameState :=
  { init_state 0 with
    mode := some .individual, room := 10, completed := true,
    inventory := ["RENUNCIA", "ORACION", "SABIDURIA"] }

/-- A character that every stage of the normalizer leaves alone. -/
def inertChar (c : Char) : Prop :=
  pyLower c = c ∧ nfdChar c = [c] ∧ isMn c = false

/-! ## Properties of the normalizer -/

theorem lowerTable_lower_not_key :
    ∀ p ∈ lowerTable, lowerTable.find? (fun q => q.1 = p.2) = none := by decide

theorem decompTable_base_inert :
    ∀ p ∈ decompTable, ∀ d ∈ p.2, isMn d = false →
      lowerTable.find? (fun q => q.1 = d) = none ∧
      decompTable.find? (fun q => q.1 = d) = none := by decide

theorem pyLower_pyLower (c : Char) : pyLower (pyLower c) = pyLower c := by
  cases hf : lowerTable.find? (fun p => p.1 = c) with
  | none => simp only [pyLower, hf]
  | some p =>
    have h2 := lowerTable_lower_not_key p (List.mem_of_find?_eq_some hf)
    simp only [pyLower, hf, h2]

theorem stripMarks_inert (l : List Char) :
    ∀ c ∈ stripMarks (l.map pyLower), inertChar c := by
  induction l with
  | nil => intro c hc; simp [stripMarks] at hc
  | cons a t ih =>
    intro c hc
    have : stripMarks ((a :: t).map pyLower)
        = (nfdChar (pyLower a)).filter (fun d => !isMn d) ++ stripMarks (t.map pyLower) := rfl
    rw [this, List.mem_append] at hc
    rcases hc with hc | hc
    · rw [List.mem_filter] at hc
      obtain ⟨hcd, hmn⟩ := hc
      have hm : isMn c = false := by simpa using hmn
      cases hf : decompTable.find? (fun p => p.1 = pyLower a) with
      | none =>
        rw [nfdChar, hf] at hcd
        simp only [List.mem_singleton] at hcd
        subst hcd
        refine ⟨pyLower_pyLower a, ?_, hm⟩
        rw [nfdChar, hf]
      | some p =>
        rw [nfdChar, hf] at hcd
        obtain ⟨hlf, hdf⟩ := decompTable_base_inert p (List.mem_of_find?_eq_some hf) c hcd hm
        refine ⟨?_, ?_, hm⟩
        · rw [pyLower, hlf]
        · rw [nfdChar, hdf]
    · exact ih c hc

theorem inert_space : inertChar ' ' := by
  refine ⟨?_, ?_, rfl⟩ <;> decide

theorem map_id_of_mem (l : List Char) (f : Char → Char) (h : ∀ c ∈ l, f c = c) :
    l.map f = l := by
  induction l with
  | nil => rfl
  | cons a t ih =>
    simp only [List.map_cons, h a (List.mem_cons_self a t),
      ih (fun c hc => h c (List.mem_cons_of_mem a hc))]

theorem stripMarks_id_of_inert (l : List Char)
    (h : ∀ c ∈ l, nfdChar c = [c] ∧ isMn c = false) : stripMarks l = l := by
  induction l with
  | nil => rfl
  | cons a t ih =>
    have ha := h a (List.mem_cons_self a t)
    have : stripMarks (a :: t)
        = (nfdChar a).filter (fun d => !isMn d) ++ stripMarks t := rfl
    rw [this, ha.1, ih (fun c hc => h c (List.mem_cons_of_mem a hc))]
    simp [ha.2]

theorem wordsAux_mem_orig : ∀ (l acc w : List Char) (c : Char),
    w ∈ wordsAux l acc → c ∈ w → c ∈ l ∨ c ∈ acc := by
  intro l
  induction l with
  | nil =>
    intro acc w c hw hc
    by_cases h : acc = []
    · subst h; simp [wordsAux] at hw
    · simp only [wordsAux, if_neg h, List.mem_singleton] at hw
      subst hw
      exact Or.inr (List.mem_reverse.mp hc)
  | cons a t ih =>
    intro acc w c hw hc
    by_cases ha : isWs a = true
    · by_cases hacc : acc = []
      · simp only [wordsAux, ha, if_true, hacc, if_pos rfl] at hw
        rcases ih [] w c hw hc with h | h
        · exact Or.inl (List.mem_cons_of_mem a h)
        · simp at h
      · simp only [wordsAux, ha, if_true, if_neg hacc, List.mem_cons] at hw
        rcases hw with hw | hw
        · subst hw; exact Or.inr (List.mem_reverse.mp hc)
        · rcases ih [] w c hw hc with h | h
          · exact Or.inl (List.mem_cons_of_mem a h)
          · simp at h
    · simp only [wordsAux, ha, if_false] at hw
      rcases ih (a :: acc) w c hw hc with h | h
      · exact Or.inl (List.mem_cons_of_mem a h)
      · rcases List.mem_cons.mp h with h | h
        · exact Or.inl (h ▸ List.mem_cons_self a t)
        · exact Or.inr h

theorem wordsAux_no_ws : ∀ (l acc w : List Char) (c : Char),
    (∀ a ∈ acc, isWs a = false) → w ∈ wordsAux l acc → c ∈ w → isWs c = false := by
  intro l
  induction l with
  | nil =>
    intro acc w c haccw hw hc
    by_cases h : acc = []
    · subst h; simp [wordsAux] at hw
    · simp only [wordsAux, if_neg h, List.mem_singleton] at hw
      subst hw
      exact haccw c (List.mem_reverse.mp hc)
  | cons a t ih =>
    intro acc w c haccw hw hc
    by_cases ha : isWs a = true
    · by_cases hacc : acc = []
      · simp only [wordsAux, ha, if_true, hacc, if_pos rfl] at hw
        exact ih [] w c (by simp) hw hc
      · simp only [wordsAux, ha, if_true, if_neg hacc, List.mem_cons] at hw
        rcases hw with hw | hw
        · subst hw; exact haccw c (List.mem_reverse.mp hc)
        · exact ih [] w c (by simp) hw hc
    · simp only [wordsAux, ha, if_false] at hw
      refine ih (a :: acc) w c ?_ hw hc
      intro b hb
      rcases List.mem_cons.mp hb with hb | hb
      · subst hb; simpa using ha
      · exact haccw b hb

theorem wordsAux_ne_nil : ∀ (l acc w : List Char), w ∈ wordsAux l acc → w ≠ [] := by
  intro l
  induction l with
  | nil =>
    intro acc w hw
    by_cases h : acc = []
    · subst h; simp [wordsAux] at hw
    · simp only [wordsAux, if_neg h, List.mem_singleton] at hw
      subst hw
      simpa using h
  | cons a t ih =>
    intro acc w hw
    by_cases ha : isWs a = true
    · by_cases hacc : acc = []
      · simp only [wordsAux, ha, if_true, hacc, if_pos rfl] at hw
        exact ih [] w hw
      · simp only [wordsAux, ha, if_true, if_neg hacc, List.mem_cons] at hw
        rcases hw with hw | hw
        · subst hw; simpa using hacc
        · exact ih [] w hw
    · simp only [wordsAux, ha, if_false] at hw
      exact ih (a :: acc) w hw

theorem wordsAux_all_no_ws : ∀ (w acc : List Char),
    (∀ c ∈ w, isWs c = false) → (acc ≠ [] ∨ w ≠ []) →
    wordsAux w acc = [acc.reverse ++ w] := by
  intro w
  induction w with
  | nil =>
    intro acc _ h
    have hacc : acc ≠ [] := by
      rcases h with h | h
      · exact h
      · simp at h
    simp [wordsAux, hacc]
  | cons a t ih =>
    intro acc hws _
    have ha : isWs a = false := hws a (List.mem_cons_self a t)
    simp only [wordsAux, ha, if_false]
    rw [ih (a :: acc) (fun c hc => hws c (List.mem_cons_of_mem a hc)) (Or.inl (by simp))]
    simp

theorem wordsAux_word_sep : ∀ (w acc l : List Char),
    (∀ c ∈ w, isWs c = false) → (acc ≠ [] ∨ w ≠ []) →
    wordsAux (w ++ ' ' :: l) acc = (acc.reverse ++ w) :: wordsAux l [] := by
  intro w
  induction w with
  | nil =>
    intro acc l _ h
    have hacc : acc ≠ [] := by
      rcases h with h | h
      · exact h
      · simp at h
    have hsp : isWs ' ' = true := rfl
    simp [wordsAux, hsp, hacc]
  | cons a t ih =>
    intro acc l hws _
    have ha : isWs a = false := hws a (List.mem_cons_self a t)
    have : (a :: t) ++ ' ' :: l = a :: (t ++ ' ' :: l) := rfl
    rw [this]
    simp only [wordsAux, ha, if_false]
    rw [ih (a :: acc) l (fun c hc => hws c (List.mem_cons_of_mem a hc)) (Or.inl (by simp))]
    simp

theorem joinSp_cons_cons (w x : List Char) (ws : List (List Char)) :
    joinSp (w :: x :: ws) = w ++ ' ' :: joinSp (x :: ws) := rfl

theorem words_joinSp : ∀ (ws : List (List Char)),
    (∀ w ∈ ws, w ≠ []) → (∀ w ∈ ws, ∀ c ∈ w, isWs c = false) →
    words (joinSp ws) = ws := by
  intro ws
  induction ws with
  | nil => intro _ _; rfl
  | cons w ws ih =>
    intro hne hws
    cases ws with
    | nil =>
      have h := wordsAux_all_no_ws w [] (hws w (by simp)) (Or.inr (hne w (by simp)))
      simpa [words, joinSp] using h
    | cons w2 ws2 =>
      have hstep := wordsAux_word_sep w [] (joinSp (w2 :: ws2)) (hws w (by simp))
        (Or.inr (hne w (by simp)))
      have ihh := ih (fun u hu => hne u (List.mem_cons_of_mem w hu))
        (fun u hu => hws u (List.mem_cons_of_mem w hu))
      rw [words, joinSp_cons_cons, hstep]
      rw [words] at ihh
      rw [ihh]
      simp

theorem mem_joinSp : ∀ (ws : List (List Char)) (c : Char),
    c ∈ joinSp ws → c = ' ' ∨ ∃ w ∈ ws, c ∈ w := by
  intro ws
  induction ws with
  | nil => intro c hc; simp [joinSp] at hc
  | cons w ws ih =>
    intro c hc
    cases ws with
    | nil => exact Or.inr ⟨w, by simp, by simpa [joinSp] using hc⟩
    | cons w2 ws2 =>
      rw [joinSp_cons_cons, List.mem_append] at hc
      rcases hc with h | h
      · exact Or.inr ⟨w, by simp, h⟩
      · rcases List.mem_cons.mp h with h | h
        · exact Or.inl h
        · rcases ih c h with h | ⟨u, hu, hcu⟩
          · exact Or.inl h
          · exact Or.inr ⟨u, List.mem_cons_of_mem w hu, hcu⟩

theorem exists_concat_mem (l : List Char) (h : l ≠ []) :
    ∃ t c, l = t ++ [c] ∧ c ∈ l := by
  induction l with
  | nil => exact absurd rfl h
  | cons a t ih =>
    cases t with
    | nil => exact ⟨[], a, rfl, by simp⟩
    | cons b t2 =>
      obtain ⟨t', c, heq, hc⟩ := ih (by simp)
      refine ⟨a :: t', c, ?_, List.mem_cons_of_mem a hc⟩
      rw [List.cons_append, ← heq]

theorem joinSp_concat_no_ws : ∀ (ws : List (List Char)),
    ws ≠ [] → (∀ w ∈ ws, w ≠ []) → (∀ w ∈ ws, ∀ c ∈ w, isWs c = false) →
    ∃ t c, joinSp ws = t ++ [c] ∧ isWs c = false := by
  intro ws
  induction ws with
  | nil => intro h; exact absurd rfl h
  | cons w ws ih =>
    intro _ hne hws
    cases ws with
    | nil =>
      obtain ⟨t, c, heq, hc⟩ := exists_concat_mem w (hne w (by simp))
      exact ⟨t, c, by simpa [joinSp] using heq, hws w (by simp) c hc⟩
    | cons w2 ws2 =>
      obtain ⟨t, c, heq, hc⟩ := ih (by simp)
        (fun u hu => hne u (List.mem_cons_of_mem w hu))
        (fun u hu => hws u (List.mem_cons_of_mem w hu))
      refine ⟨w ++ ' ' :: t, c, ?_, hc⟩
      rw [joinSp_cons_cons, heq]
      simp

theorem stripWs_eq_self (l : List Char)
    (hhead : ∀ a t, l = a :: t → isWs a = false)
    (hlast : ∀ t c, l = t ++ [c] → isWs c = false) : stripWs l = l := by
  cases l with
  | nil => rfl
  | cons a t =>
    have ha : isWs a = false := hhead a t rfl
    obtain ⟨t', c, heq, _⟩ := exists_concat_mem (a :: t) (by simp)
    have hc : isWs c = false := hlast t' c heq
    rw [stripWs]
    rw [List.dropWhile_cons, ha]
    simp only [Bool.false_eq_true, if_false]
    rw [heq]
    rw [List.reverse_append]
    simp only [List.reverse_cons, List.reverse_nil, List.nil_append, List.singleton_append]
    rw [List.dropWhile_cons, hc]
    simp only [Bool.false_eq_true, if_false]
    simp

theorem normList_idem (l : List Char) : normList (normList l) = normList l := by
  have hwords : ∀ w ∈ words (stripMarks ((stripWs l).map pyLower)), w ≠ [] :=
    fun w hw => wordsAux_ne_nil _ [] w hw
  have hwsf : ∀ w ∈ words (stripMarks ((stripWs l).map pyLower)), ∀ c ∈ w, isWs c = false :=
    fun w hw c hc => wordsAux_no_ws _ [] w c (by simp) hw hc
  have hinert : ∀ w ∈ words (stripMarks ((stripWs l).map pyLower)), ∀ c ∈ w, inertChar c := by
    intro w hw c hc
    rcases wordsAux_mem_orig _ [] w c hw hc with h | h
    · exact stripMarks_inert (stripWs l) c h
    · simp at h
  have hl : normList l = joinSp (words (stripMarks ((stripWs l).map pyLower))) := rfl
  cases hws : words (stripMarks ((stripWs l).map pyLower)) with
  | nil =>
    rw [hl, hws]
    rfl
  | cons w ws =>
    rw [hl, hws]
    have hne' : ∀ u ∈ w :: ws, u ≠ [] := by rw [← hws]; exact hwords
    have hwsf' : ∀ u ∈ w :: ws, ∀ c ∈ u, isWs c = false := by rw [← hws]; exact hwsf
    have hinert' : ∀ u ∈ w :: ws, ∀ c ∈ u, inertChar c := by rw [← hws]; exact hinert
    have hmem : ∀ c ∈ joinSp (w :: ws), inertChar c ∧ (c = ' ' ∨ isWs c = false) := by
      intro c hc
      rcases mem_joinSp (w :: ws) c hc with h | ⟨u, hu, hcu⟩
      · subst h; exact ⟨inert_space, Or.inl rfl⟩
      · exact ⟨hinert' u hu c hcu, Or.inr (hwsf' u hu c hcu)⟩
    have h1 : stripWs (joinSp (w :: ws)) = joinSp (w :: ws) := by
      refine stripWs_eq_self _ ?_ ?_
      · intro a t heq
        cases ws with
        | nil =>
          have hw0 : joinSp [w] = w := rfl
          rw [hw0] at heq
          exact hwsf' w (by simp) a (heq ▸ List.mem_cons_self a t)
        | cons w2 ws2 =>
          obtain ⟨b, wt, hwb⟩ : ∃ b wt, w = b :: wt := by
            cases hwcase : w with
            | nil => exact absurd hwcase (hne' w (by simp))
            | cons b wt => exact ⟨b, wt, rfl⟩
          rw [joinSp_cons_cons, hwb] at heq
          have hba : b = a := by
            have h5 := congrArg (fun x => x.head?) heq
            simpa using h5
          have hgoal : isWs b = false :=
            hwsf' w (by simp) b (hwb ▸ List.mem_cons_self b wt)
          rwa [hba] at hgoal
      · intro t c heq
        obtain ⟨t', c', heq', hc'⟩ := joinSp_concat_no_ws (w :: ws) (by simp) hne' hwsf'
        rw [heq] at heq'
        have : c = c' := by
          have := congrArg (·.getLast?) heq'
          simpa using this
        exact this ▸ hc'
    have h2 : (joinSp (w :: ws)).map pyLower = joinSp (w :: ws) :=
      map_id_of_mem _ _ (fun c hc => (hmem c hc).1.1)
    have h3 : stripMarks (joinSp (w :: ws)) = joinSp (w :: ws) :=
      stripMarks_id_of_inert _ (fun c hc => ⟨(hmem c hc).1.2.1, (hmem c hc).1.2.2⟩)
    have h4 : words (joinSp (w :: ws)) = w :: ws := words_joinSp (w :: ws) hne' hwsf'
    rw [normList, h1, h2, h3, h4]

/-- C10: the normalizer is idempotent: for every input string `s`,
`normalize (normalize s) = normalize s`, so already-normalized accepted
answers and tokens compare stably under repeated normalization. -/
theorem c10_normalize_idempotent (s : String) :
    normalize (normalize s) = normalize s :=
  congrArg String.mk (normList_idem s.data)

/-- C9: a confirmed restart replaces the record with a fresh one in which
`mode` equals the prior record's mode and every other field has its
fresh-record default (room 0, empty inventory, `start_ts = now`, zero
penalty, empty hint/attempt maps, not completed, empty `optional_done`,
no active optional, zero free hints, zero jokers, sub-puzzle step 0). -/
theorem c9_restart_preserves_only_mode (now : Int) (s : GameState) (p : Bool) :
    (on_button now s .restartYes p).1 = { init_state now with mode := s.mode } ∧
    (on_button now s .restartYes p).1.mode = s.mode ∧
    (on_button now s .restartYes p).1.room = 0 ∧
    (on_button now s .restartYes p).1.inventory = [] ∧
    (on_button now s .restartYes p).1.start_ts = now ∧
    (on_button now s .restartYes p).1.penalty_sec = 0 ∧
    (on_button now s .restartYes p).1.hints_used = [] ∧
    (on_button now s .restartYes p).1.attempts = [] ∧
    (on_button now s .restartYes p).1.completed = false ∧
    (on_button now s .restartYes p).1.optional_done = [] ∧
    (on_button now s .restartYes p).1.in_optional = none ∧
    (on_button now s .restartYes p).1.free_hints = 0 ∧
    (on_button now s .restartYes p).1.jokers = 0 ∧
    (on_button now s .restartYes p).1.s4_step = 0 :=
  ⟨rfl, rfl, rfl, rfl, rfl, rfl, rfl, rfl, rfl, rfl, rfl, rfl, rfl, rfl⟩

theorem room4_no_final (s : GameState) (txt : String) (r : GameState × List Msg)
    (h : handle_room4_sequence s txt = some r) : ∀ st, Msg.final st ∉ r.2 := by
  simp only [handle_room4_sequence] at h
  split at h
  · exact absurd h (by simp)
  · split at h
    · obtain rfl := Option.some.inj h
      intro st
      simp
    · split at h
      · obtain rfl := Option.some.inj h
        intro st
        simp
      · split at h
        · obtain rfl := Option.some.inj h
          intro st
          simp
        · split at h
          · obtain rfl := Option.some.inj h
            intro st
            simp
          · obtain rfl := Option.some.inj h
            intro st
            simp [send_room]

theorem final_report_uses_score (now : Int) (s : GameState) (raw : String) (st : ScoreStats)
    (h : Msg.final st ∈ (on_text now s raw).2) :
    st = compute_score now (on_text now s raw).1 := by
  rcases hr : on_text now s raw with ⟨s2, msgs⟩
  rw [hr] at h
  simp only [on_text] at hr
  split at hr
  · injection hr with h1 h2
    subst h1
    subst h2
    simp at h
  · split at hr
    · injection hr with h1 h2
      subst h1
      subst h2
      simp at h
    · split at hr
      · -- active optional
        split at hr
        · injection hr with h1 h2
          subst h1
          subst h2
          simp at h
        · injection hr with h1 h2
          subst h1
          subst h2
          simp [send_room] at h
      · split at hr
        · injection hr with h1 h2
          subst h1
          subst h2
          simp at h
        · split at hr
          · -- room-4 handler consumed the event
            rename_i r4 heq4
            have hnofin := room4_no_final _ _ _ heq4
            rw [hr] at hnofin
            exact absurd h (hnofin st)
          · split at hr
            · -- room 10
              split at hr
              · injection hr with h1 h2
                subst h1
                subst h2
                simp at h
              · injection hr with h1 h2
                subst h1
                subst h2
                simp at h
                exact h
            · split at hr
              · injection hr with h1 h2
                subst h1
                subst h2
                simp at h
              · split at hr
                · injection hr with h1 h2
                  subst h1
                  subst h2
                  simp at h
                · injection hr with h1 h2
                  subst h1
                  subst h2
                  simp [send_room] at h

/-- C2: for every session record and every `now`, the score report satisfies
`timeSec = (now - startTimestamp) + penaltySeconds`, `hintsUsed` and
`attempts` are the sums of the per-room maps, `optionalCount` is the number
of completed optionals, and `score = max(0, 1000 - timeSec - 40*hintsUsed -
5*attempts + 50*optionalCount + (200 if completed else 0))`; the score is
never negative; the provisional status report and any final completion
report both carry exactly `compute_score`'s output. -/
theorem c2_score_report (now : Int) (s : GameState) :
    (compute_score now s).time_sec = (now - s.start_ts) + (s.penalty_sec : Int) ∧
    (compute_score now s).hints_used = msum s.hints_used ∧
    (compute_score now s).attempts = msum s.attempts ∧
    (compute_score now s).optional_done = s.optional_done.length ∧
    (compute_score now s).score =
      max 0 (1000 - (compute_score now s).time_sec
        - 40 * ((compute_score now s).hints_used : Int)
        - 5 * ((compute_score now s).attempts : Int)
        + 50 * ((compute_score now s).optional_done : Int)
        + (if s.completed then 200 else 0)) ∧
    0 ≤ (compute_score now s).score ∧
    (cmd_estado now s).2 = Msg.status (compute_score now s) ∧
    (∀ raw st, Msg.final st ∈ (on_text now s raw).2 →
      st = compute_score now (on_text now s raw).1) := by
  have hmax : ∀ x : Int, (if x < 0 then 0 else x) = max 0 x := by
    intro x
    omega
  have hnn : ∀ x : Int, 0 ≤ (if x < 0 then 0 else x) := by
    intro x
    omega
  exact ⟨rfl, rfl, rfl, rfl, hmax _, hnn _, rfl,
    fun raw st h => final_report_uses_score now s raw st h⟩

/-- C2 witness: the formula and the final report evaluated on a concrete
completing submission. -/
theorem c2_score_report_witness :
    (compute_score 20 c2State).score =
      max 0 (1000 - (compute_score 20 c2State).time_sec
        - 40 * ((compute_score 20 c2State).hints_used : Int)
        - 5 * ((compute_score 20 c2State).attempts : Int)
        + 50 * ((compute_score 20 c2State).optional_done : Int)
        + (if c2State.completed then 200 else 0)) ∧
    (∃ st, Msg.final st ∈ (on_text 20 c2State "desapego, fortaleza, compasion").2 ∧
      st = compute_score 20 (on_text 20 c2State "desapego, fortaleza, compasion").1) := by
  constructor
  · exact (c2_score_report 20 c2State).2.2.2.2.1
  · have hm : Msg.final (compute_score 20
        (on_text 20 c2State "desapego, fortaleza, compasion").1) ∈
        (on_text 20 c2State "desapego, fortaleza, compasion").2 := by decide
    exact ⟨_, hm,
      (c2_score_report 20 c2State).2.2.2.2.2.2.2 "desapego, fortaleza, compasion" _ hm⟩

theorem on_text_room10_eq (now : Int) (s : GameState) (raw : String) (m : Mode)
    (hm : s.mode = some m) (hc : s.completed = false) (ho : s.in_optional = none)
    (hr : s.room = 10) :
    on_text now s raw =
      (if (validate_room_10 raw s.inventory s.jokers).1 then
        (if (validate_room_10 raw s.inventory s.jokers).2 then
          ({ s with attempts := minc s.attempts 10, jokers := s.jokers - 1, completed := true },
           [Msg.text (ROOMS 10).success,
            Msg.final (compute_score now
              { s with attempts := minc s.attempts 10, jokers := s.jokers - 1, completed := true })])
        else
          ({ s with attempts := minc s.attempts 10, completed := true },
           [Msg.text (ROOMS 10).success,
            Msg.final (compute_score now
              { s with attempts := minc s.attempts 10, completed := true })]))
      else ({ s with attempts := minc s.attempts 10 }, [Msg.text retryMain])) := by
  have hm' : (s.mode = none) = False := by simp [hm]
  have hc' : (s.completed = true) = False := by simp [hc]
  have h0' : (s.room = 0) = False := by simp [hr]
  have h10' : (s.room = 10) = True := by simp [hr]
  have h4 : handle_room4_sequence s (normalize raw) = none := by
    simp [handle_room4_sequence, hr]
  have hitem : (ROOMS 10).item = none := rfl
  simp only [on_text, hm', if_false, hc', ho, h0', h10', if_true, h4, hr, hitem, add_item]
  rcases hv : validate_room_10 raw s.inventory s.jokers with ⟨ok, uj⟩
  cases ok <;> cases uj <;> simp

/-- C1: for every room-10 text submission, the validator splits the raw
input on commas, normalizes each token, de-duplicates preserving order, and:
with at least 3 unique tokens the submission succeeds iff the first three
tokens are all in the normalized inventory and jokers are untouched; with
exactly 2 unique tokens and `jokers > 0` it succeeds iff both tokens are in
the inventory and on that success jokers decreases by exactly one; in every
other case it fails; and jokers is unchanged on any failure, whose only
state change is the attempt counter. -/
theorem c1_room10_validation (now : Int) (s : GameState) (raw : String) (m : Mode)
    (hm : s.mode = some m) (hc : s.completed = false) (ho : s.in_optional = none)
    (hr : s.room = 10) :
    ((3 ≤ (dedup (room10_tokens raw)).length →
       (((on_text now s raw).1.completed = true ↔
          ∀ t ∈ (dedup (room10_tokens raw)).take 3, t ∈ s.inventory.map normalize) ∧
        (on_text now s raw).1.jokers = s.jokers)) ∧
     ((dedup (room10_tokens raw)).length = 2 → 0 < s.jokers →
       (((on_text now s raw).1.completed = true ↔
          ∀ t ∈ dedup (room10_tokens raw), t ∈ s.inventory.map normalize) ∧
        ((on_text now s raw).1.completed = true →
          (on_text now s raw).1.jokers + 1 = s.jokers) ∧
        ((on_text now s raw).1.completed = false →
          (on_text now s raw).1.jokers = s.jokers))) ∧
     ((dedup (room10_tokens raw)).length ≤ 1 ∨
        ((dedup (room10_tokens raw)).length = 2 ∧ s.jokers = 0) →
       ((on_text now s raw).1.completed = false ∧
        (on_text now s raw).1.jokers = s.jokers)) ∧
     ((on_text now s raw).1.completed = false →
       on_text now s raw = ({ s with attempts := minc s.attempts 10 }, [Msg.text retryMain]))) := by
  have hbody := on_text_room10_eq now s raw m hm hc ho hr
  have hvdef : validate_room_10 raw s.inventory s.jokers =
      (if 3 ≤ (dedup (room10_tokens raw)).length then
        (((dedup (room10_tokens raw)).take 3).all
          (fun t => t ∈ s.inventory.map normalize), false)
      else if (dedup (room10_tokens raw)).length = 2 ∧ 0 < s.jokers then
        ((dedup (room10_tokens raw)).all (fun t => t ∈ s.inventory.map normalize), true)
      else (false, false)) := rfl
  refine ⟨?_, ?_, ?_, ?_⟩
  · intro hlen
    have hv1 : validate_room_10 raw s.inventory s.jokers =
        (((dedup (room10_tokens raw)).take 3).all
          (fun t => t ∈ s.inventory.map normalize), false) := by
      rw [hvdef, if_pos hlen]
    by_cases hall : ((dedup (room10_tokens raw)).take 3).all
        (fun t => t ∈ s.inventory.map normalize) = true
    · rw [hbody, hv1]
      simp only [hall, if_true, Bool.false_eq_true, if_false]
      constructor
      · constructor
        · intro _
          simpa [List.all_eq_true] using hall
        · intro _
          trivial
      · trivial
    · rw [hbody, hv1]
      have hall' : (((dedup (room10_tokens raw)).take 3).all
          (fun t => t ∈ s.inventory.map normalize)) = false := by
        simpa using hall
      simp only [hall', Bool.false_eq_true, if_false]
      constructor
      · constructor
        · intro hcontr
          simp_all
        · intro hx
          exact absurd (by simpa [List.all_eq_true] using hx) hall
      · trivial
  · intro hlen hj
    have hn3 : ¬ 3 ≤ (dedup (room10_tokens raw)).length := by omega
    have hv2 : validate_room_10 raw s.inventory s.jokers =
        ((dedup (room10_tokens raw)).all (fun t => t ∈ s.inventory.map normalize), true) := by
      rw [hvdef, if_neg hn3, if_pos ⟨hlen, hj⟩]
    by_cases hall : (dedup (room10_tokens raw)).all
        (fun t => t ∈ s.inventory.map normalize) = true
    · rw [hbody, hv2]
      simp only [hall, if_true]
      refine ⟨?_, ?_, ?_⟩
      · constructor
        · intro _
          simpa [List.all_eq_true] using hall
        · intro _
          trivial
      · intro _
        show s.jokers - 1 + 1 = s.jokers
        omega
      · intro hcontr
        simp_all
    · have hall' : ((dedup (room10_tokens raw)).all
          (fun t => t ∈ s.inventory.map normalize)) = false := by
        simpa using hall
      rw [hbody, hv2]
      simp only [hall', Bool.false_eq_true, if_false]
      refine ⟨?_, ?_, ?_⟩
      · constructor
        · intro hcontr
          simp_all
        · intro hx
          exact absurd (by simpa [List.all_eq_true] using hx) hall
      · intro hcontr
        simp_all
      · intro _
        trivial
  · intro hother
    have hv3 : validate_room_10 raw s.inventory s.jokers = (false, false) := by
      rcases hother with h1 | ⟨h2, h3⟩
      · rw [hvdef, if_neg (by omega), if_neg (by omega)]
      · rw [hvdef, if_neg (by omega), if_neg (by simp [h2, h3])]
    rw [hbody, hv3]
    simp [hc]
  · intro hfail
    rw [hbody] at hfail ⊢
    rcases hv : validate_room_10 raw s.inventory s.jokers with ⟨ok, uj⟩
    rw [hv] at hfail
    cases ok
    · simp
    · cases uj <;> simp_all

/-- C1 witness: the three correct items in a different order complete the
game without consulting jokers. -/
theorem c1_room10_validation_witness :
    (on_text 0 c1State "Sabiduria, renuncia, oracion").1.completed = true ∧
    (on_text 0 c1State "Sabiduria, renuncia, oracion").1.jokers = c1State.jokers := by
  have h := c1_room10_validation 0 c1State "Sabiduria, renuncia, oracion" .individual
    rfl rfl rfl rfl
  refine ⟨(h.1 (by decide)).1.mpr (by decide), (h.1 (by decide)).2⟩

theorem rooms_hints_ne_nil (r : Nat) (h1 : 1 ≤ r) (h2 : r ≤ 10) :
    ¬((ROOMS r).hints = []) := by
  interval_cases r <;> decide

/-- C3 (amended): for every hint request in a main room (mode set, not
completed, not in an optional, room in 1..10): if all of the room's hints are
already consumed, the reply is "no more hints" but `hints_used[room]` is
nevertheless incremented by one — the counter counts hint requests, not only
hints actually delivered — and nothing else changes; otherwise, if
`free_hints > 0` the hint is returned with zero penalty and `free_hints`
decreases by one, and else the N-th hint consumed in the room adds exactly
`30*N` seconds to `penalty_sec`. -/
theorem c3_hint_request (s : GameState) (m : Mode)
    (hm : s.mode = some m) (hc : s.completed = false) (ho : s.in_optional = none)
    (h1 : 1 ≤ s.room) (h2 : s.room ≤ 10) :
    (((ROOMS s.room).hints.length ≤ mget s.hints_used s.room →
      cmd_pista s =
        ({ s with hints_used := mset s.hints_used s.room (mget s.hints_used s.room + 1) },
         Msg.text "No hay más pistas disponibles para esta sala.")) ∧
     (mget s.hints_used s.room < (ROOMS s.room).hints.length → 0 < s.free_hints →
      cmd_pista s =
        ({ s with hints_used := mset s.hints_used s.room (mget s.hints_used s.room + 1),
                  free_hints := s.free_hints - 1 },
         Msg.text ("PISTA: " ++ (ROOMS s.room).hints.getD (mget s.hints_used s.room) "" ++
           "\n(Sin penalización: usaste una pista gratuita.)"))) ∧
     (mget s.hints_used s.room < (ROOMS s.room).hints.length → s.free_hints = 0 →
      cmd_pista s =
        ({ s with hints_used := mset s.hints_used s.room (mget s.hints_used s.room + 1),
                  penalty_sec := s.penalty_sec + 30 * (mget s.hints_used s.room + 1) },
         Msg.text ("PISTA: " ++ (ROOMS s.room).hints.getD (mget s.hints_used s.room) "" ++
           "\nPenalización: +" ++ toString (30 * (mget s.hints_used s.room + 1)) ++ " s")))) := by
  have hm' : (s.mode = none) = False := by simp [hm]
  have hc' : (s.completed = true) = False := by simp [hc]
  have ho' : (s.in_optional.isSome = true) = False := by simp [ho]
  have h0' : (s.room = 0) = False := eq_false (by omega)
  have hne : ((ROOMS s.room).hints = []) = False := eq_false (rooms_hints_ne_nil s.room h1 h2)
  simp only [cmd_pista, hm', hc', ho', h0', hne, if_false, Nat.add_sub_cancel]
  refine ⟨?_, ?_, ?_⟩
  · intro hge
    rw [if_pos hge]
  · intro hlt hfree
    rw [if_neg (by omega), if_pos hfree]
  · intro hlt hfree
    rw [if_neg (by omega), if_neg (by omega)]

/-- C3 counterexample: in `c3StateA` both hints of room 1 are consumed; a
further request replies "no more hints" yet the session record is mutated:
`hints_used[1]` grows from 2 to 3, refuting the claim's
"the session record is left unchanged". -/
theorem c3_hint_request_cex :
    (cmd_pista c3StateA).2 = Msg.text "No hay más pistas disponibles para esta sala." ∧
    (cmd_pista c3StateA).1 ≠ c3StateA ∧
    mget c3StateA.hints_used 1 = 2 ∧
    mget (cmd_pista c3StateA).1.hints_used 1 = 3 := by decide

/-- C3 witness: with one free-hint credit in room 5 the hint is delivered
penalty-free and the credit is consumed. -/
theorem c3_hint_request_witness :
    cmd_pista c3StateB =
      ({ c3StateB with
          hints_used := mset c3StateB.hints_used c3StateB.room
            (mget c3StateB.hints_used c3StateB.room + 1),
          free_hints := c3StateB.free_hints - 1 },
       Msg.text ("PISTA: " ++ (ROOMS c3StateB.room).hints.getD
         (mget c3StateB.hints_used c3StateB.room) "" ++
         "\n(Sin penalización: usaste una pista gratuita.)")) := by
  have h := c3_hint_request c3StateB .individual rfl rfl rfl (by decide) (by decide)
  exact h.2.1 (by decide) (by decide)

theorem on_text_room4_eq (now : Int) (s : GameState) (raw : String) (m : Mode)
    (hm : s.mode = some m) (hc : s.completed = false) (ho : s.in_optional = none)
    (hr : s.room = 4) (r : GameState × List Msg)
    (h4 : handle_room4_sequence s (normalize raw) = some r) :
    on_text now s raw = r := by
  have hm' : (s.mode = none) = False := by simp [hm]
  have hc' : (s.completed = true) = False := by simp [hc]
  have h0' : (s.room = 0) = False := by simp [hr]
  simp only [on_text, hm', if_false, hc', ho, h0', h4]

/-- C4 (amended): on a text event in room 4 (mode set, not completed, not in
an optional): when `s4_step` is outside 0..2 the step is reset to 0 and the
first prompt is re-shown but `attempts[4]` is NOT incremented (the recovery
branch returns before the increment); on every in-range event `attempts[4]`
is incremented; a non-matching answer leaves the step unchanged; a matching
answer at step 0 or 1 increments the step; a matching answer at step 2 sets
the step to 3, grants FORTALEZA, sends the success text and advances to
room 5. -/
theorem c4_room4_sequence (now : Int) (s : GameState) (raw : String) (m : Mode)
    (hm : s.mode = some m) (hc : s.completed = false) (ho : s.in_optional = none)
    (hr : s.room = 4) :
    ((s.s4_step < 0 ∨ 2 < s.s4_step →
       on_text now s raw = ({ s with s4_step := 0 },
         [Msg.text "Reiniciamos la Sala 4.\nTentación: SOBERBIA\n¿Qué virtud la vence?"])) ∧
     (0 ≤ s.s4_step → s.s4_step ≤ 2 →
       normalize raw ≠ room4_expected.getD s.s4_step.toNat "" →
       on_text now s raw = ({ s with attempts := minc s.attempts 4 },
         [Msg.text "No es correcto. Inténtalo de nuevo (una palabra)."])) ∧
     (s.s4_step = 0 → normalize raw = "humildad" →
       on_text now s raw = ({ s with attempts := minc s.attempts 4, s4_step := 1 },
         [Msg.text "Correcto.\n\nSiguiente tentación: RIQUEZA\n¿Qué virtud la vence?"])) ∧
     (s.s4_step = 1 → normalize raw = "pobreza" →
       on_text now s raw = ({ s with attempts := minc s.attempts 4, s4_step := 2 },
         [Msg.text "Correcto.\n\nSiguiente tentación: MIEDO\n¿Qué virtud la vence?"])) ∧
     (s.s4_step = 2 → normalize raw = "confianza" →
       on_text now s raw =
         ({ add_item { s with attempts := minc s.attempts 4, s4_step := 3 } (some "FORTALEZA")
             with room := 5 },
          [Msg.text "Correcto.\nHas vencido las 3 tentaciones.",
           Msg.text (ROOMS 4).success, Msg.roomPrompt 5]))) := by
  have hnr : (s.room ≠ 4) = False := by simp [hr]
  refine ⟨?_, ?_, ?_, ?_, ?_⟩
  · intro hstep
    refine on_text_room4_eq now s raw m hm hc ho hr _ ?_
    simp only [handle_room4_sequence, hnr, if_false]
    rw [if_pos hstep]
  · intro hge hle hne
    refine on_text_room4_eq now s raw m hm hc ho hr _ ?_
    simp only [handle_room4_sequence, hnr, if_false]
    rw [if_neg (by omega), if_pos hne]
  · intro hstep hmatch
    refine on_text_room4_eq now s raw m hm hc ho hr _ ?_
    have hexp : room4_expected.getD s.s4_step.toNat "" = "humildad" := by
      rw [hstep]; rfl
    simp only [handle_room4_sequence, hnr, if_false]
    rw [if_neg (by omega), if_neg (by rw [hmatch, hexp]; simp), if_pos hstep]
  · intro hstep hmatch
    refine on_text_room4_eq now s raw m hm hc ho hr _ ?_
    have hexp : room4_expected.getD s.s4_step.toNat "" = "pobreza" := by
      rw [hstep]; rfl
    simp only [handle_room4_sequence, hnr, if_false]
    rw [if_neg (by omega), if_neg (by rw [hmatch, hexp]; simp),
      if_neg (by rw [hstep]; norm_num), if_pos hstep]
  · intro hstep hmatch
    refine on_text_room4_eq now s raw m hm hc ho hr _ ?_
    have hexp : room4_expected.getD s.s4_step.toNat "" = "confianza" := by
      rw [hstep]; rfl
    have hitem : (ROOMS 4).item = some "FORTALEZA" := rfl
    simp only [handle_room4_sequence, hnr, if_false]
    rw [if_neg (by omega), if_neg (by rw [hmatch, hexp]; simp),
      if_neg (by rw [hstep]; norm_num), if_neg (by rw [hstep]; norm_num)]
    simp only [hitem, send_room]
    norm_num

/-- C4 counterexample: in `c4StateA` the sub-puzzle step is 5 (outside 0..2);
the event resets the step and re-shows the first prompt but `attempts` is
left unchanged, refuting the claim's "attemptsByRoom[4] is incremented —
including on the event where subPuzzleStep is found outside the valid
range". -/
theorem c4_room4_sequence_cex :
    c4StateA.s4_step = 5 ∧
    (on_text 0 c4StateA "humildad").1.attempts = c4StateA.attempts ∧
    mget (on_text 0 c4StateA "humildad").1.attempts 4 = 0 ∧
    (on_text 0 c4StateA "humildad").1.s4_step = 0 ∧
    (on_text 0 c4StateA "humildad").2 =
      [Msg.text "Reiniciamos la Sala 4.\nTentación: SOBERBIA\n¿Qué virtud la vence?"] := by
  decide

/-- C4 witness: a matching (case- and whitespace-variant) answer at step 2
completes the sequence, grants FORTALEZA and advances to room 5. -/
theorem c4_room4_sequence_witness :
    on_text 0 c4StateB "  CONFIANZA " =
      ({ add_item { c4StateB with attempts := minc c4StateB.attempts 4, s4_step := 3 }
          (some "FORTALEZA") with room := 5 },
       [Msg.text "Correcto.\nHas vencido las 3 tentaciones.",
        Msg.text (ROOMS 4).success, Msg.roomPrompt 5]) := by
  have h := c4_room4_sequence 0 c4StateB "  CONFIANZA " .individual rfl rfl rfl rfl
  exact h.2.2.2.2 rfl (by decide)

theorem add_item_attempts (s : GameState) (it : Option String) :
    (add_item s it).attempts = s.attempts := by
  cases it with
  | none => rfl
  | some a =>
    by_cases h : a ∈ s.inventory <;> simp [add_item, h]

theorem on_text_main_eq (now : Int) (s : GameState) (raw : String) (m : Mode) (k : Nat)
    (hm : s.mode = some m) (hc : s.completed = false) (ho : s.in_optional = none)
    (hr : s.room = k) (h0 : k ≠ 0) (h4 : k ≠ 4) (h10 : k ≠ 10) :
    on_text now s raw =
      (if normalize raw ∉ ((ROOMS k).answers.getD []).map normalize then
        ({ s with attempts := minc s.attempts k }, [Msg.text retryMain])
      else
        match OPTIONAL_OFFER_POINTS k with
        | some p => (add_item { s with attempts := minc s.attempts k } (ROOMS k).item,
                     [Msg.text (ROOMS k).success, Msg.offer p.1 p.2])
        | none =>
          ((send_room (add_item { s with attempts := minc s.attempts k } (ROOMS k).item)
              (k + 1)).1,
           [Msg.text (ROOMS k).success,
            (send_room (add_item { s with attempts := minc s.attempts k } (ROOMS k).item)
              (k + 1)).2])) := by
  have hm' : (s.mode = none) = False := by simp [hm]
  have hc' : (s.completed = true) = False := by simp [hc]
  have h0' : (k = 0) = False := by simp [h0]
  have h10' : (k = 10) = False := by simp [h10]
  have hr4 : handle_room4_sequence s (normalize raw) = none := by
    simp [handle_room4_sequence, hr, h4]
  simp only [on_text, hm', if_false, hc', ho, hr, h0', hr4, h10']

/-- C5 (amended): for every room n in {1,2,3,5,6,7,8,9} and every submission
whose normalized form matches an accepted answer (this captures all variants
differing only in case, diacritics, or whitespace runs), processing it while
`currentRoom == n` (mode set, not completed, not in an optional) increments
`attempts[n]` by one, ensures the room's reward item is in the inventory —
adding it as exactly one new item when it is not already present, while a
re-submission at a checkpoint room leaves the inventory unchanged — and
either advances to n+1 (rooms 1,2,5,7,9) or stays at n while presenting the
checkpoint's optional-room offer (rooms 3,6,8); a non-matching submission
increments `attempts[n]` and mutates nothing else. -/
theorem c5_main_rooms (now : Int) (s : GameState) (raw : String) (m : Mode)
    (hm : s.mode = some m) (hc : s.completed = false) (ho : s.in_optional = none)
    (hroom : s.room ∈ [1, 2, 3, 5, 6, 7, 8, 9]) :
    ((normalize raw ∉ ((ROOMS s.room).answers.getD []).map normalize →
       on_text now s raw =
         ({ s with attempts := minc s.attempts s.room }, [Msg.text retryMain])) ∧
     (normalize raw ∈ ((ROOMS s.room).answers.getD []).map normalize →
       ((∀ p, OPTIONAL_OFFER_POINTS s.room = some p →
          on_text now s raw =
            (add_item { s with attempts := minc s.attempts s.room } (ROOMS s.room).item,
             [Msg.text (ROOMS s.room).success, Msg.offer p.1 p.2])) ∧
        (OPTIONAL_OFFER_POINTS s.room = none →
          on_text now s raw =
            ({ add_item { s with attempts := minc s.attempts s.room } (ROOMS s.room).item
                with room := s.room + 1 },
             [Msg.text (ROOMS s.room).success, Msg.roomPrompt (s.room + 1)])))) ∧
     (∀ it, (ROOMS s.room).item = some it →
       (add_item { s with attempts := minc s.attempts s.room } (ROOMS s.room).item).inventory
         = (if it ∈ s.inventory then s.inventory else s.inventory ++ [it])) ∧
     (add_item { s with attempts := minc s.attempts s.room } (ROOMS s.room).item).attempts
       = minc s.attempts s.room) := by
  simp only [List.mem_cons, List.not_mem_nil, or_false] at hroom
  rcases hroom with hk | hk | hk | hk | hk | hk | hk | hk <;>
  · rw [hk]
    have hred := on_text_main_eq now s raw m _ hm hc ho hk
      (by norm_num) (by norm_num) (by norm_num)
    rw [hk] at hred
    refine ⟨?_, ?_, ?_, ?_⟩
    · intro hmem
      rw [hred, if_pos hmem]
    · intro hmem
      refine ⟨?_, ?_⟩
      · intro p hp
        first
        | exact absurd hp (by simp)
        | rw [hred, if_neg (by simpa using hmem), hp]
      · intro hop
        first
        | exact absurd hop (by decide)
        | (rw [hred, if_neg (by simpa using hmem), hop]
           simp [send_room])
    · intro it hit
      rw [hit]
      by_cases hin : it ∈ s.inventory <;> simp [add_item, hin]
    · exact add_item_attempts _ _

/-- C5 counterexample: in `c5StateA` all of the claim's guards hold for
room 3 and "desierto" is an accepted answer, yet the submission adds no
inventory item (SOLEDAD is already present), refuting "adds exactly one
inventory item". -/
theorem c5_main_rooms_cex :
    c5StateA.room = 3 ∧ c5StateA.mode = some Mode.individual ∧
    c5StateA.completed = false ∧ c5StateA.in_optional = none ∧
    normalize "desierto" ∈ ((ROOMS 3).answers.getD []).map normalize ∧
    (on_text 0 c5StateA "desierto").1.inventory = c5StateA.inventory := by
  decide

/-- C5 witness: a case- and whitespace-variant of room 1's answer advances a
fresh session to room 2 and adds RENUNCIA. -/
theorem c5_main_rooms_witness :
    on_text 0 c5StateB "  VENDE lo que tienes y DALO a los pobres  " =
      ({ add_item { c5StateB with attempts := minc c5StateB.attempts 1 } (ROOMS 1).item
          with room := 2 },
       [Msg.text (ROOMS 1).success, Msg.roomPrompt 2]) := by
  have h := c5_main_rooms 0 c5StateB "  VENDE lo que tienes y DALO a los pobres  "
    .individual rfl rfl rfl (by decide)
  exact (h.2.1 (by decide)).2 rfl

/-- C6: for every text event while an optional is active (mode set, not
completed, optional not already done): the normalized input is compared only
against that optional's accepted answers; on mismatch nothing changes and a
retry is sent; on match the optional is added to `optional_done`, its reward
is applied exactly once (freeHints +1, jokers +1, or penalty reduced by 60
floored at 0, according to the optional), `in_optional` is cleared, the
success text is sent, and the session transitions to the optional's
designated return room. -/
theorem c6_optional_rooms (now : Int) (s : GameState) (raw : String) (o : OptId) (m : Mode)
    (hm : s.mode = some m) (hc : s.completed = false) (ho : s.in_optional = some o)
    (hnd : o ∉ s.optional_done) :
    ((normalize raw ∉ (OPTIONALS o).answers.map normalize →
       on_text now s raw = (s, [Msg.text "No es correcto. Inténtalo de nuevo."])) ∧
     (normalize raw ∈ (OPTIONALS o).answers.map normalize →
       ((on_text now s raw).1.optional_done = s.optional_done ++ [o] ∧
        (on_text now s raw).1.in_optional = none ∧
        (on_text now s raw).1.room = (OPTIONALS o).back_to ∧
        (on_text now s raw).1.free_hints
          = s.free_hints + (OPTIONALS o).reward.free_hints.getD 0 ∧
        (on_text now s raw).1.jokers = s.jokers + (OPTIONALS o).reward.jokers.getD 0 ∧
        (on_text now s raw).1.penalty_sec
          = s.penalty_sec - (OPTIONALS o).reward.remove_penalty_sec.getD 0 ∧
        (on_text now s raw).1.inventory = s.inventory ∧
        (on_text now s raw).1.hints_used = s.hints_used ∧
        (on_text now s raw).1.attempts = s.attempts ∧
        (on_text now s raw).1.completed = false ∧
        (on_text now s raw).2 = [Msg.text (OPTIONALS o).success,
          Msg.roomPrompt (OPTIONALS o).back_to]))) := by
  have hm' : (s.mode = none) = False := by simp [hm]
  have hc' : (s.completed = true) = False := by simp [hc]
  have hnd' : (o ∈ s.optional_done) = False := by simp [hnd]
  constructor
  · intro hmem
    simp only [on_text, hm', if_false, hc', ho]
    rw [if_pos hmem]
  · intro hmem
    simp only [on_text, hm', if_false, hc', ho, hnd']
    rw [if_neg (by simpa using hmem)]
    cases o <;> simp [OPTIONALS, apply_reward, send_room, hc]

/-- C6 witness: solving optional B reduces the penalty 90 → 30, marks B done,
clears the active optional and returns to room 7. -/
theorem c6_optional_rooms_witness :
    (on_text 0 c6State "B").1.penalty_sec = 30 ∧
    (on_text 0 c6State "B").1.optional_done = [OptId.B] ∧
    (on_text 0 c6State "B").1.in_optional = none ∧
    (on_text 0 c6State "B").1.room = 7 := by
  have h := c6_optional_rooms 0 c6State "B" .B .individual rfl rfl rfl (by decide)
  have h2 := h.2 (by decide)
  exact ⟨h2.2.2.2.2.2.1, h2.1, h2.2.1, h2.2.2.1⟩

theorem send_room_room (s : GameState) (n : Nat) : (send_room s n).1.room = n := by
  by_cases h : n = 4 <;> simp [send_room, h]

theorem add_item_room (s : GameState) (it : Option String) :
    (add_item s it).room = s.room := by
  cases it with
  | none => rfl
  | some a =>
    by_cases h : a ∈ s.inventory <;> simp [add_item, h]

theorem cmd_pista_room (s : GameState) : (cmd_pista s).1.room = s.room := by
  simp only [cmd_pista]
  split
  · rfl
  · split
    · rfl
    · split
      · rfl
      · split
        · rfl
        · split
          · rfl
          · split
            · rfl
            · split
              · rfl
              · rfl

theorem handle_room4_room_mono (s : GameState) (txt : String) (r : GameState × List Msg)
    (h : handle_room4_sequence s txt = some r) : s.room ≤ r.1.room := by
  simp only [handle_room4_sequence] at h
  split at h
  · exact absurd h (by simp)
  · rename_i hne
    have h4 : s.room = 4 := not_not.mp hne
    split at h
    · obtain rfl := Option.some.inj h
      simp
    · split at h
      · obtain rfl := Option.some.inj h
        simp
      · split at h
        · obtain rfl := Option.some.inj h
          simp
        · split at h
          · obtain rfl := Option.some.inj h
            simp
          · obtain rfl := Option.some.inj h
            simp only []
            rw [send_room_room, h4]
            omega

theorem on_text_room_mono (now : Int) (s : GameState) (raw : String)
    (hop : ∀ o, s.in_optional = some o → s.room ≤ (OPTIONALS o).back_to) :
    s.room ≤ (on_text now s raw).1.room := by
  rcases hr : on_text now s raw with ⟨s2, msgs⟩
  simp only [on_text] at hr
  split at hr
  · injection hr with h1 h2
    subst h1
    simp
  · split at hr
    · injection hr with h1 h2
      subst h1
      simp
    · split at hr
      · -- active optional
        rename_i opt heq
        split at hr
        · injection hr with h1 h2
          subst h1
          simp
        · injection hr with h1 h2
          subst h1
          have hb := hop opt heq
          simp only []
          rw [send_room_room]
          exact hb
      · split at hr
        · injection hr with h1 h2
          subst h1
          simp
        · split at hr
          · -- room-4 handler consumed the event
            rename_i r4 heq4
            have := handle_room4_room_mono _ _ _ heq4
            rw [hr] at this
            exact this
          · split at hr
            · -- room 10
              split at hr
              · injection hr with h1 h2
                subst h1
                simp
              · injection hr with h1 h2
                subst h1
                simp only []
                rw [add_item_room]
                split <;> simp
            · split at hr
              · injection hr with h1 h2
                subst h1
                simp
              · split at hr
                · -- checkpoint offer
                  injection hr with h1 h2
                  subst h1
                  simp only []
                  rw [add_item_room]
                · -- advance to the next room
                  injection hr with h1 h2
                  subst h1
                  simp only []
                  rw [send_room_room]
                  omega

/-- C7 (amended): `currentRoom` never decreases on any inbound event other
than reset/restart, provided the event is played in a state that offers it:
a stale "enter room 1" / mode-selection button may only be pressed with
`currentRoom ≤ 1`, a checkpoint's skip button only when the room is at most
its resume room, and an active optional's return room is not behind the
current room (true whenever the optional was entered at its checkpoint).
Replayed stale buttons CAN decrease the room (see the counterexample). -/
theorem c7_room_monotone (now : Int) (s : GameState) (e : Event)
    (hop : ∀ o, s.in_optional = some o → s.room ≤ (OPTIONALS o).back_to)
    (hmode : ∀ p, e = .button .modeIndividual p ∨ e = .button .modeGroup p → s.room ≤ 1)
    (hent : ∀ p, e = .button .enter1 p → s.room ≤ 1)
    (hskip : ∀ o n p, e = .button (.optSkip o n) p → s.room ≤ n)
    (hres : ∀ p, e ≠ .button .restartYes p) :
    s.room ≤ (step now s e).1.room := by
  cases e with
  | textMsg raw => exact on_text_room_mono now s raw hop
  | button b p =>
    cases b with
    | modeIndividual =>
      have h1 := hmode p (Or.inl rfl)
      simpa [step, on_button, init_state] using h1
    | modeGroup =>
      have h1 := hmode p (Or.inr rfl)
      cases p
      · simp [step, on_button, init_state]
        omega
      · simp [step, on_button]
    | restartYes => exact absurd rfl (hres p)
    | restartNo => simp [step, on_button]
    | enter1 =>
      have h1 := hent p rfl
      simp only [step, on_button]
      rw [send_room_room]
      omega
    | optEnter o =>
      by_cases hdone : o ∈ s.optional_done <;> simp [step, on_button, hdone]
    | optSkip o n =>
      have h1 := hskip o n p rfl
      simp only [step, on_button]
      rw [send_room_room]
      exact h1
  | hintReq =>
    simp only [step]
    rw [cmd_pista_room]
  | statusReq => simp [step, cmd_estado]
  | invReq => simp [step, cmd_inventario]

/-- C7 counterexample: replaying the stale "enter room 1" button at room 5
sends the session back to room 1 — `currentRoom` decreases on an inbound
event that is not a reset/restart, refuting the claim as stated. -/
theorem c7_room_monotone_cex :
    c7StateA.room = 5 ∧
    (step 0 c7StateA (.button .enter1 false)).1.room = 1 ∧
    (step 0 c7StateA (.button .enter1 false)).1.room < c7StateA.room := by decide

/-- C7 witness: a text event at room 6 (the checkpoint answer) keeps the
room monotone. -/
theorem c7_room_monotone_witness :
    c7StateB.room ≤ (step 0 c7StateB (.textMsg "falso")).1.room :=
  c7_room_monotone 0 c7StateB (.textMsg "falso")
    (by decide)
    (fun _ h => h.elim (fun h1 => Event.noConfusion h1) (fun h1 => Event.noConfusion h1))
    (fun _ h => Event.noConfusion h)
    (fun _ _ _ h => Event.noConfusion h)
    (fun _ h => Event.noConfusion h)

/-- C8 (amended): once `completed` is true (with a mode set), every text
submission and hint request leaves the session record unchanged and replies
with the already-completed guidance, and status/inventory queries are
read-only; button presses, however, are NOT guarded by completion — a
replayed mode/enter/optional button can still mutate a completed session
(see the counterexample). -/
theorem c8_completed_terminal (now : Int) (s : GameState) (m : Mode)
    (hm : s.mode = some m) (hc : s.completed = true) :
    (∀ raw, on_text now s raw = (s, [Msg.text alreadyDone])) ∧
    cmd_pista s = (s, Msg.text alreadyDone) ∧
    (∀ raw, (step now s (.textMsg raw)).1 = s) ∧
    (step now s .hintReq).1 = s ∧
    (step now s .statusReq).1 = s ∧
    (step now s .invReq).1 = s := by
  have hm' : (s.mode = none) = False := by simp [hm]
  have hc' : (s.completed = true) = True := by simp [hc]
  have h1 : ∀ raw, on_text now s raw = (s, [Msg.text alreadyDone]) := by
    intro raw
    simp only [on_text, hm', if_false, hc', if_true]
  have h2 : cmd_pista s = (s, Msg.text alreadyDone) := by
    simp only [cmd_pista, hm', if_false, hc', if_true]
  refine ⟨h1, h2, ?_, ?_, rfl, rfl⟩
  · intro raw
    rw [show step now s (.textMsg raw) = on_text now s raw from rfl, h1 raw]
  · rw [show (step now s .hintReq).1 = (cmd_pista s).1 from rfl, h2]

/-- C8 counterexample: the button handler has no completed guard — replaying
the "enter room 1" button on a completed session mutates the record
(room 10 → 1) and replies with a room prompt instead of the
already-completed guidance, refuting the claim for button presses. -/
theorem c8_completed_terminal_cex :
    c8State.completed = true ∧
    (step 0 c8State (.button .enter1 false)).1 ≠ c8State ∧
    (step 0 c8State (.button .enter1 false)).1.room = 1 ∧
    (step 0 c8State (.button .enter1 false)).2 = [Msg.roomPrompt 1] := by decide

/-- C8 witness: on the completed session, a text submission and a hint
request change nothing and reply with the guidance message. -/
theorem c8_completed_terminal_witness :
    on_text 0 c8State "renuncia, oracion, sabiduria" = (c8State, [Msg.text alreadyDone]) ∧
    cmd_pista c8State = (c8State, Msg.text alreadyDone) := by
  have h := c8_completed_terminal 0 c8State .individual rfl rfl
  exact ⟨h.1 "renuncia, oracion, sabiduria", h.2.1⟩

end EscapeBot
